import Mathlib

/-!
# Verification of the Overmind per-tick task scheduler

A shallow embedding of the Overlord orchestration code (task assignment,
creep-spawn requests, directive placement, safe-mode handling), of the
QueenOverlord creep handler, and of the market/trader periphery they touch,
together with theorems settling the specified properties.

Entity references, positions and identifiers are modelled as natural
numbers; room structures are records carrying exactly the fields the
embedded functions read.  Fallible steps (a method call on a possibly
missing reference) are modelled with `Except`.
-/

/-! ## Objectives and the objective group

`ObjectiveGroup` (priority-bucketed pool of assignable work) is referenced
by `Overlord.assignTask` but its class body is not among the provided
source files, so its two operations are modelled from the spec.
-/

/-- One unit of assignable work: a type tag naming its priority bucket, a
target entity reference, and the target's position. -/
structure Objective where
  otype  : String
  target : Nat
  tpos   : Nat
  deriving DecidableEq, Repr

/-- A worker creep: an identifier, a position, and the set of bucket names
(action kinds) it is capable of performing. -/
structure Worker where
  wid  : Nat
  wpos : Nat
  capabilities : List String
  deriving DecidableEq, Repr

/-- Distance between a worker and an objective's target (one-dimensional
abstraction of range). -/
def wdist (w : Worker) (o : Objective) : Nat :=
  max w.wpos o.tpos - min w.wpos o.tpos

/-- Modelled from the spec: the per-tick state of an `ObjectiveGroup`
(class body not in the provided sources) — the configured priority-bucket
list, the objectives registered this tick, and the targets already claimed
by Tasks this tick. -/
structure ObjectiveGroup where
  priorities : List String
  objectives : List Objective
  claimedTargets : List Nat
  deriving DecidableEq, Repr

/-- Modelled from the spec: within a bucket, the candidate whose target is
nearest to the worker; ties go to the earlier-registered objective. -/
def minByDist (w : Worker) : List Objective → Option Objective
  | [] => none
  | o :: os =>
    match minByDist w os with
    | none => some o
    | some o2 => if wdist w o ≤ wdist w o2 then some o else some o2

/-- Modelled from the spec: the objectives of bucket `b` whose targets are
not yet claimed this tick. -/
def bucketCandidates (g : ObjectiveGroup) (b : String) : List Objective :=
  g.objectives.filter (fun o => o.otype == b && !(g.claimedTargets.contains o.target))

/-- Modelled from the spec: iterate the priority buckets in configured
order; the first bucket compatible with the worker's capability set that
has an unclaimed candidate yields the nearest such candidate. -/
def assignTaskIn (g : ObjectiveGroup) (w : Worker) : List String → Option Objective
  | [] => none
  | b :: bs =>
    if w.capabilities.contains b then
      match minByDist w (bucketCandidates g b) with
      | some o => some o
      | none => assignTaskIn g w bs
    else assignTaskIn g w bs

/-- Modelled from the spec: `ObjectiveGroup.assignTask` — on a match the
objective is returned and its target is marked claimed for the rest of the
tick; otherwise the worker stays idle and the group is unchanged. -/
def assignTask (g : ObjectiveGroup) (w : Worker) : Option Objective × ObjectiveGroup :=
  match assignTaskIn g w g.priorities with
  | some o => (some o, { g with claimedTargets := o.target :: g.claimedTargets })
  | none => (none, g)

/-- A sequence of `assignTask` calls within one tick, one per worker in
order, accumulating the assigned objectives. -/
def processWorkers (g : ObjectiveGroup) : List Worker → List Objective × ObjectiveGroup
  | [] => ([], g)
  | w :: ws =>
    match assignTask g w with
    | (some o, g2) => ((o :: (processWorkers g2 ws).1), (processWorkers g2 ws).2)
    | (none, g2) => processWorkers g2 ws

/-- The priority list installed by the `Overlord` constructor. -/
def objectivePriorities : List String :=
  ["supplyTower", "supply", "pickupEnergy", "collectEnergyMiningSite",
   "collectEnergyContainer", "depositContainer", "build", "repair",
   "buildRoad", "fortify", "upgrade"]

/-- The objective group as instantiated by the `Overlord` constructor:
the fixed priority list, with no objectives registered and no claims yet. -/
def overlordObjectiveGroup : ObjectiveGroup :=
  { priorities := objectivePriorities, objectives := [], claimedTargets := [] }

/-! ### Lemmas about assignment -/

theorem minByDist_mem {w : Worker} {l : List Objective} {o : Objective}
    (h : minByDist w l = some o) : o ∈ l := by
  induction l with
  | nil => simp [minByDist] at h
  | cons x xs ih =>
    simp only [minByDist] at h
    cases hx : minByDist w xs with
    | none => rw [hx] at h; simp at h; simp [h]
    | some o2 =>
      rw [hx] at h
      by_cases hd : wdist w x ≤ wdist w o2
      · simp [hd] at h; simp [h]
      · simp [hd] at h
        exact List.mem_cons_of_mem _ (ih (h ▸ hx))

theorem minByDist_eq_none {w : Worker} {l : List Objective}
    (h : minByDist w l = none) : l = [] := by
  cases l with
  | nil => rfl
  | cons x xs =>
    simp only [minByDist] at h
    cases hx : minByDist w xs with
    | none => rw [hx] at h; simp at h
    | some o2 =>
      rw [hx] at h
      by_cases hd : wdist w x ≤ wdist w o2 <;> simp [hd] at h

theorem bucketCandidates_mem {g : ObjectiveGroup} {b : String} {o : Objective}
    (h : o ∈ bucketCandidates g b) :
    o ∈ g.objectives ∧ o.otype = b ∧ o.target ∉ g.claimedTargets := by
  simp only [bucketCandidates, List.mem_filter, Bool.and_eq_true,
    beq_iff_eq, Bool.not_eq_true'] at h
  refine ⟨h.1, h.2.1, ?_⟩
  intro hc
  have h2 := h.2.2
  simp at h2
  exact h2 hc

theorem assignTaskIn_sound {g : ObjectiveGroup} {w : Worker} {o : Objective} :
    ∀ {bs : List String}, assignTaskIn g w bs = some o →
    o ∈ g.objectives ∧ o.otype ∈ bs ∧ o.target ∉ g.claimedTargets := by
  intro bs
  induction bs with
  | nil => intro h; simp [assignTaskIn] at h
  | cons b rest ih =>
    intro h
    simp only [assignTaskIn] at h
    by_cases hc : w.capabilities.contains b
    · rw [if_pos hc] at h
      cases hm : minByDist w (bucketCandidates g b) with
      | some o1 =>
        rw [hm] at h
        simp only [Option.some.injEq] at h
        subst h
        have hmem := bucketCandidates_mem (minByDist_mem hm)
        exact ⟨hmem.1, by simp [hmem.2.1], hmem.2.2⟩
      | none =>
        rw [hm] at h
        have := ih h
        exact ⟨this.1, List.mem_cons_of_mem _ this.2.1, this.2.2⟩
    · rw [if_neg hc] at h
      have := ih h
      exact ⟨this.1, List.mem_cons_of_mem _ this.2.1, this.2.2⟩

theorem assignTask_some {g : ObjectiveGroup} {w : Worker} {o : Objective}
    {g2 : ObjectiveGroup} (h : assignTask g w = (some o, g2)) :
    o.target ∉ g.claimedTargets ∧
    g2 = { g with claimedTargets := o.target :: g.claimedTargets } := by
  simp only [assignTask] at h
  cases ha : assignTaskIn g w g.priorities with
  | some o1 =>
    rw [ha] at h
    simp only [Prod.mk.injEq, Option.some.injEq] at h
    obtain ⟨ho, hg⟩ := h
    subst ho
    exact ⟨(assignTaskIn_sound ha).2.2, hg.symm⟩
  | none => rw [ha] at h; simp at h

theorem assignTask_none {g : ObjectiveGroup} {w : Worker}
    {g2 : ObjectiveGroup} (h : assignTask g w = (none, g2)) : g2 = g := by
  simp only [assignTask] at h
  cases ha : assignTaskIn g w g.priorities with
  | some o1 => rw [ha] at h; simp at h
  | none => rw [ha] at h; simp only [Prod.mk.injEq] at h; exact h.2.symm

theorem assignTaskIn_skips_empty {g : ObjectiveGroup} {w : Worker} {o : Objective} :
    ∀ (pre post : List String), assignTaskIn g w (pre ++ post) = some o →
    o.otype ∉ pre →
    ∀ b ∈ pre, w.capabilities.contains b = true → bucketCandidates g b = [] := by
  intro pre
  induction pre with
  | nil => intro post h hno b hb; simp at hb
  | cons b0 rest ih =>
    intro post h hno b hb hcap
    simp only [List.cons_append, assignTaskIn] at h
    by_cases hc0 : w.capabilities.contains b0
    · rw [if_pos hc0] at h
      cases hm : minByDist w (bucketCandidates g b0) with
      | some o1 =>
        rw [hm] at h
        simp only [Option.some.injEq] at h
        subst h
        have := (bucketCandidates_mem (minByDist_mem hm)).2.1
        exact absurd (by simp [this]) hno
      | none =>
        rw [hm] at h
        rcases List.mem_cons.mp hb with hb0 | hbr
        · subst hb0; exact minByDist_eq_none hm
        · exact ih post h (fun hx => hno (List.mem_cons_of_mem _ hx)) b hbr hcap
    · rw [if_neg hc0] at h
      rcases List.mem_cons.mp hb with hb0 | hbr
      · subst hb0; exact absurd hcap (by simpa using hc0)
      · exact ih post h (fun hx => hno (List.mem_cons_of_mem _ hx)) b hbr hcap

/-- **C1.** Within one tick, each objective target is claimed by at most one
Task: across any sequence of `assignTask` calls, the returned objectives have
pairwise-distinct targets, and no returned target was already claimed when
the sequence began. -/
theorem C1_each_target_claimed_at_most_once (g : ObjectiveGroup) (ws : List Worker) :
    ((processWorkers g ws).1.map Objective.target).Nodup ∧
    List.Disjoint ((processWorkers g ws).1.map Objective.target) g.claimedTargets := by
  induction ws generalizing g with
  | nil => simp [processWorkers]
  | cons w ws ih =>
    cases hA : assignTask g w with
    | mk res g2 =>
      cases res with
      | some o =>
        obtain ⟨hnotcl, hg2⟩ := assignTask_some hA
        have ihg := ih g2
        simp only [processWorkers, hA, List.map_cons] at *
        constructor
        · refine List.nodup_cons.mpr ⟨?_, ihg.1⟩
          intro hmem
          exact ihg.2 hmem (by rw [hg2]; exact List.mem_cons_self _ _)
        · intro a ha hacl
          rcases List.mem_cons.mp ha with h1 | h2
          · subst h1; exact hnotcl hacl
          · exact ihg.2 h2 (by rw [hg2]; exact List.mem_cons_of_mem _ hacl)
      | none =>
        have hg2 := assignTask_none hA
        rw [hg2] at hA
        simp only [processWorkers, hA]
        exact ih g

/-- **C4.** `assignTask` never returns an objective from a lower-priority
bucket while an unclaimed objective compatible with the worker exists in a
higher-priority bucket: buckets are evaluated in the fixed configured order
of the priority list, so every compatible bucket strictly before the bucket
of the returned objective has no unclaimed candidate. -/
theorem C4_priority_order_respected (g : ObjectiveGroup) (w : Worker) (o : Objective)
    (pre post : List String)
    (hp : g.priorities = pre ++ post)
    (h : (assignTask g w).1 = some o)
    (hno : o.otype ∉ pre) :
    ∀ b ∈ pre, w.capabilities.contains b = true → bucketCandidates g b = [] := by
  have hIn : assignTaskIn g w g.priorities = some o := by
    simp only [assignTask] at h
    cases hx : assignTaskIn g w g.priorities with
    | some o1 => rw [hx] at h; simpa using h
    | none => rw [hx] at h; simp at h
  rw [hp] at hIn
  exact assignTaskIn_skips_empty pre post hIn hno

/-- Example group for exercising the assignment theorems: the Overlord's
priority list, one registered repair objective, nothing claimed. -/
def gEx4 : ObjectiveGroup :=
  { priorities := objectivePriorities,
    objectives := [{ otype := "repair", target := 1, tpos := 0 }],
    claimedTargets := [] }

/-- Example worker with supply and repair capabilities. -/
def wEx4 : Worker := { wid := 0, wpos := 0, capabilities := ["supply", "repair"] }

theorem C4_priority_order_respected_witness :
    bucketCandidates gEx4 "supply" = [] :=
  C4_priority_order_respected gEx4 wEx4 { otype := "repair", target := 1, tpos := 0 }
    ["supplyTower", "supply", "pickupEnergy", "collectEnergyMiningSite",
     "collectEnergyContainer", "depositContainer", "build"]
    ["repair", "buildRoad", "fortify", "upgrade"]
    (by decide) (by decide) (by decide) "supply" (by decide) (by decide)

/-! ## Overlord orchestration state

A record carrying exactly the colony/room fields read by
`registerCreepRequests`, `handleSafeMode` and `placeDirectives`.
-/

/-- A storage structure, as read by the emergency check (`storage.energy`). -/
structure StorageInfo where
  energy : Nat
  deriving DecidableEq, Repr

/-- A hostile creep: its position and its owner's user name. -/
structure HostileInfo where
  hpos : Nat
  ownerUsername : String
  deriving DecidableEq, Repr

/-- A placed flag, abstracted to which directive filters match it
(`DirectiveGuard.filter` / `DirectiveEmergency.filter` are external
collaborators; a flag is modelled by the two filter outcomes). -/
structure FlagInfo where
  isGuardMarker : Bool
  isEmergencyMarker : Bool
  deriving DecidableEq, Repr

/-- A room checked for guard placement: its flags and its hostiles. -/
structure RoomInfo where
  flags : List FlagInfo
  hostiles : List HostileInfo
  deriving DecidableEq, Repr

/-- The colony/room state read by the Overlord orchestration sub-steps. -/
structure OverlordState where
  controllerPresent : Bool
  roomSafeMode : Bool
  barrierHits : List Nat
  hostiles : List HostileInfo
  flags : List FlagInfo
  energyAvailable : Nat
  storage : Option StorageInfo
  storageUnits : Nat
  terminalPresent : Bool
  labCount : Nat
  hatcheryPresent : Bool
  hatcheryPos : Nat
  incubator : Bool
  isIncubating : Bool
  numMineralSuppliers : Nat
  numWorkers : Nat
  numSuppliers : Nat
  numMiners : Nat
  outposts : List RoomInfo
  incubatingRooms : List RoomInfo
  deriving DecidableEq, Repr

/-- A creep-spawn request enqueued to the hatchery by `registerCreepRequests`. -/
inductive SpawnRequest where
  | mineralSupplier
  | worker
  deriving DecidableEq, Repr

/-- `Overlord.registerCreepRequests`: with a hatchery present, enqueue a
mineral-supplier request when a terminal and at least one lab exist and no
mineral supplier is alive, and a worker request when the worker count is
below the needed count (3 with an incubator, otherwise 1) and at least one
storage unit is up.  The worker assignment passes `this.room.controller!`
as a value, which performs no runtime dereference. -/
def registerCreepRequests (s : OverlordState) : List SpawnRequest :=
  if s.hatcheryPresent then
    (if s.terminalPresent && s.labCount > 0 && s.numMineralSuppliers < 1 then
       [SpawnRequest.mineralSupplier]
     else []) ++
    (let numWorkersNeeded := if s.incubator then 3 else 1
     if s.numWorkers < numWorkersNeeded && s.storageUnits > 0 then
       [SpawnRequest.worker]
     else [])
  else []

/-- `Overlord.handleSafeMode`: when a barrier is below 5000 hits, a hostile
not owned by user name Invader is present, and the colony has no incubator,
the room controller's `activateSafeMode` is invoked through a non-null
assertion — a runtime error (`Except.error`) when the controller is absent;
otherwise the room is left unchanged. -/
def handleSafeMode (s : OverlordState) : Except Unit OverlordState :=
  let criticalBarriers := s.barrierHits.filter (fun h => h < 5000)
  let nonInvaderHostiles := s.hostiles.filter (fun c => c.ownerUsername != "Invader")
  if criticalBarriers.length > 0 && nonInvaderHostiles.length > 0 && !s.incubator then
    if s.controllerPresent then
      Except.ok { s with roomSafeMode := true }
    else
      Except.error ()
  else
    Except.ok s

/-- The guard-placement decision of `Overlord.placeDirectives` for one room:
create a guard directive at the first hostile's position when hostiles are
present and no guard marker flag exists. -/
def guardDirectiveFor (r : RoomInfo) : Option Nat :=
  let guardFlags := r.flags.filter (fun f => f.isGuardMarker)
  if r.hostiles.length > 0 && guardFlags.length == 0 then
    r.hostiles.head?.map HostileInfo.hpos
  else
    none

/-- The rooms checked for guard placement: the colony's outposts and all
rooms of incubating colonies, flattened. -/
def roomsToCheck (s : OverlordState) : List RoomInfo :=
  s.outposts ++ s.incubatingRooms

/-- The emergency-placement decision of `Overlord.placeDirectives`
(`th` is `EMERGENCY_ENERGY_THRESHOLD`, imported from the external
`directive_emergency` module): fire only when the colony is not incubating,
a hatchery exists, spawn energy is below the threshold, there is no storage
energy supply, no miners are alive, and no emergency marker flag exists. -/
def emergencyCreate (th : Nat) (s : OverlordState) : Bool :=
  if !s.isIncubating && s.hatcheryPresent then
    let roomHasEnergy := s.energyAvailable ≥ th
    let roomHasEnergySupply :=
      match s.storage with
      | some st => st.energy > th && s.numSuppliers > 0
      | none => false
    let roomHasMiners := s.numMiners > 0
    let emergencyFlags := s.flags.filter (fun f => f.isEmergencyMarker)
    !roomHasEnergy && !roomHasEnergySupply && !roomHasMiners && emergencyFlags.length == 0
  else
    false

/-- A directive created by `placeDirectives`, with the position it is
placed at. -/
inductive Directive where
  | guard (pos : Nat)
  | emergency (pos : Nat)
  deriving DecidableEq, Repr

/-- `Overlord.placeDirectives`: guard directives for every checked room
whose guard decision fires, then the emergency directive at the hatchery's
position when the emergency decision fires. -/
def placeDirectives (th : Nat) (s : OverlordState) : List Directive :=
  ((roomsToCheck s).filterMap (fun r => (guardDirectiveFor r).map Directive.guard)) ++
  (if emergencyCreate th s then [Directive.emergency s.hatcheryPos] else [])

/-! ## Repair-objective registration (from `registerObjectives`) -/

/-- A repairable structure: its structure type, current hits and maximum
hits. -/
structure RepairableInfo where
  stype : String
  hits : Nat
  hitsMax : Nat
  deriving DecidableEq, Repr

def STRUCTURE_CONTAINER : String := "container"

def STRUCTURE_ROAD : String := "road"

/-- The repair filter of `Overlord.registerObjectives`:
`hits < hitsMax`, and for containers and roads additionally
`hits < 0.7 * hitsMax` — stated over integers as `10 * hits < 7 * hitsMax`,
which is the exact meaning of the 70% cutoff on integer hit points. -/
def repairFilter (s : RepairableInfo) : Bool :=
  decide (s.hits < s.hitsMax) &&
  (!(s.stype == STRUCTURE_CONTAINER) || decide (10 * s.hits < 7 * s.hitsMax)) &&
  (!(s.stype == STRUCTURE_ROAD) || decide (10 * s.hits < 7 * s.hitsMax))

/-- The structures of a room for which `registerObjectives` creates an
`ObjectiveRepair`. -/
def repairTargets (repairables : List RepairableInfo) : List RepairableInfo :=
  repairables.filter repairFilter

/-! ## Tick phases (from `Overlord.init` and `Overlord.run`)

The two phase methods are embedded as the sequence of steps they perform,
in source order: `init` runs every directive's `init` hook, then
`registerObjectives`, then `registerCreepRequests`; `run` runs every
directive's `run` hook, then `handleSafeMode`, then `placeDirectives`.
-/

/-- One step performed by the Overlord's `init` or `run` method. -/
inductive TickEvent where
  | directiveInitHook (i : Nat)
  | registerObjectivesStep
  | registerCreepRequestsStep
  | directiveRunHook (i : Nat)
  | handleSafeModeStep
  | placeDirectivesStep
  deriving DecidableEq, Repr

/-- The sequence of steps `Overlord.init` performs with `n` directives. -/
def initPhaseSteps (n : Nat) : List TickEvent :=
  ((List.range' 0 n).map TickEvent.directiveInitHook) ++
  [TickEvent.registerObjectivesStep, TickEvent.registerCreepRequestsStep]

/-- The sequence of steps `Overlord.run` performs with `n` directives. -/
def runPhaseSteps (n : Nat) : List TickEvent :=
  ((List.range' 0 n).map TickEvent.directiveRunHook) ++
  [TickEvent.handleSafeModeStep, TickEvent.placeDirectivesStep]

/-- Position of the first occurrence of a step in a phase sequence. -/
def stepIdx (e : TickEvent) : List TickEvent → Nat
  | [] => 0
  | x :: xs => if x = e then 0 else stepIdx e xs + 1

/-! ## QueenOverlord (from `src/overlords/core/queen.ts`) -/

/-- An energy store (hatchery link or battery), abstracted to the two
predicates the queen logic reads. -/
structure StoreInfo where
  isEmpty : Bool
  isFull : Bool
  deriving DecidableEq, Repr

/-- The hatchery state read by `handleQueen`: the optional link and battery,
and the result of `transportRequests.getPrioritizedClosestRequest(queen.pos,
"supply")` for this queen (the request group is an external collaborator;
its answer is modelled as an input carrying the request's target). -/
structure HatcheryState where
  link : Option StoreInfo
  battery : Option StoreInfo
  supplyRequest : Option Nat
  deriving DecidableEq, Repr

/-- The queen creep fields read by `handleQueen`. -/
structure QueenState where
  carryEnergy : Nat
  carryCapacity : Nat
  deriving DecidableEq, Repr

/-- A task assignable to the queen. -/
inductive QueenTask where
  | transfer (target : Nat)
  | withdrawLink
  | withdrawBattery
  | recharge
  | transferBattery
  deriving DecidableEq, Repr

/-- `this.hatchery.link && !this.hatchery.link.isEmpty`. -/
def linkNonEmpty (h : HatcheryState) : Bool :=
  match h.link with
  | some l => !l.isEmpty
  | none => false

/-- `this.hatchery.battery && !this.hatchery.battery.isEmpty`. -/
def batteryNonEmpty (h : HatcheryState) : Bool :=
  match h.battery with
  | some b => !b.isEmpty
  | none => false

/-- `QueenOverlord.rechargeActions`: withdraw from the link when present and
non-empty, else from the battery when present and non-empty, else the
generic recharge task. -/
def rechargeActions (h : HatcheryState) : QueenTask :=
  if linkNonEmpty h then QueenTask.withdrawLink
  else if batteryNonEmpty h then QueenTask.withdrawBattery
  else QueenTask.recharge

/-- `QueenOverlord.supplyActions`: transfer to the prioritized closest
supply request when one exists, else fall back to `rechargeActions`. -/
def supplyActions (h : HatcheryState) : QueenTask :=
  match h.supplyRequest with
  | some t => QueenTask.transfer t
  | none => rechargeActions h

/-- `QueenOverlord.idleActions`: the link-to-battery balancing performed
when the queen still has no task. -/
def idleActions (h : HatcheryState) (q : QueenState) : Option QueenTask :=
  match h.link with
  | some l =>
    if (match h.battery with | some b => !b.isFull | none => false) && !l.isEmpty then
      if q.carryEnergy < q.carryCapacity then some QueenTask.withdrawLink
      else some QueenTask.transferBattery
    else if q.carryEnergy < q.carryCapacity then
      if !l.isEmpty then some QueenTask.withdrawLink
      else if batteryNonEmpty h then some QueenTask.withdrawBattery
      else none
    else none
  | none =>
    if h.battery.isSome && q.carryEnergy < q.carryCapacity then
      some QueenTask.withdrawBattery
    else none

/-- `QueenOverlord.handleQueen`: supply actions when carrying energy,
recharge actions otherwise; when the queen is still idle afterwards (no
task was set), fall through to `idleActions`. -/
def handleQueen (h : HatcheryState) (q : QueenState) : Option QueenTask :=
  let t : Option QueenTask :=
    if q.carryEnergy > 0 then some (supplyActions h) else some (rechargeActions h)
  match t with
  | some tk => some tk
  | none => idleActions h q

/-! ### Theorems on directive placement and orchestration -/

theorem emergencyCreate_of_marker {th : Nat} {s : OverlordState}
    (h : 0 < (s.flags.filter (fun f => f.isEmergencyMarker)).length) :
    emergencyCreate th s = false := by
  simp only [emergencyCreate]
  split
  · have hne : ((s.flags.filter (fun f => f.isEmergencyMarker)).length == 0) = false := by
      simp only [beq_eq_false_iff_ne, ne_eq]
      omega
    simp [hne]
  · rfl

/-- **C2.** The emergency directive fires exactly under the specified
conditions (not incubating, hatchery present, spawn energy below the
threshold, no storage energy supply, zero miners, no emergency marker), and
along any tick trace in which creating the directive places a marker flag
that persists, the directive is created at most once: once it fires, every
later tick declines. -/
theorem C2_emergency_directive_exactly_once :
    (∀ (th : Nat) (s : OverlordState),
      emergencyCreate th s = true ↔
        (s.isIncubating = false ∧ s.hatcheryPresent = true ∧
         s.energyAvailable < th ∧
         (∀ st, s.storage = some st → ¬(th < st.energy ∧ 0 < s.numSuppliers)) ∧
         s.numMiners = 0 ∧
         s.flags.filter (fun f => f.isEmergencyMarker) = [])) ∧
    (∀ (th : Nat) (f : Nat → OverlordState),
      (∀ i, (emergencyCreate th (f i) = true ∨
             0 < ((f i).flags.filter (fun fl => fl.isEmergencyMarker)).length) →
            0 < ((f (i + 1)).flags.filter (fun fl => fl.isEmergencyMarker)).length) →
      ∀ i j, i < j → emergencyCreate th (f i) = true →
        emergencyCreate th (f j) = false) := by
  constructor
  · intro th s
    simp only [emergencyCreate]
    set F := s.flags.filter (fun f => f.isEmergencyMarker) with hF
    by_cases h1 : s.isIncubating <;> by_cases h2 : s.hatcheryPresent <;>
      simp [h1, h2]
    cases hst : s.storage with
    | none =>
      simp [hst, List.length_eq_zero, Nat.not_le]
      tauto
    | some st =>
      simp [hst, List.length_eq_zero, Nat.not_le]
      tauto
  · intro th f hp i j hij hi
    have chain : ∀ d : Nat,
        0 < ((f (i + 1 + d)).flags.filter (fun fl => fl.isEmergencyMarker)).length := by
      intro d
      induction d with
      | zero => simpa using hp i (Or.inl hi)
      | succ d ih =>
        have := hp (i + 1 + d) (Or.inr ih)
        have he : i + 1 + d + 1 = i + 1 + (d + 1) := by omega
        rwa [he] at this
    have hj : 0 < ((f j).flags.filter (fun fl => fl.isEmergencyMarker)).length := by
      have := chain (j - (i + 1))
      rwa [show i + 1 + (j - (i + 1)) = j by omega] at this
    exact emergencyCreate_of_marker hj

/-- Example colony state in which the emergency trigger fires. -/
def sFireEx : OverlordState :=
  { controllerPresent := true, roomSafeMode := false, barrierHits := [], hostiles := [],
    flags := [], energyAvailable := 0, storage := none, storageUnits := 0,
    terminalPresent := false, labCount := 0, hatcheryPresent := true, hatcheryPos := 5,
    incubator := false, isIncubating := false, numMineralSuppliers := 0, numWorkers := 0,
    numSuppliers := 0, numMiners := 0, outposts := [], incubatingRooms := [] }

/-- The same state after the emergency marker flag has been placed. -/
def sFlaggedEx : OverlordState :=
  { sFireEx with flags := [{ isGuardMarker := false, isEmergencyMarker := true }] }

/-- Tick trace: the trigger fires on tick 0, the marker exists afterwards. -/
def emTraceEx : Nat → OverlordState :=
  fun i => if i = 0 then sFireEx else sFlaggedEx

theorem C2_emergency_directive_exactly_once_witness :
    emergencyCreate 300 (emTraceEx 0) = true ∧
    emergencyCreate 300 (emTraceEx 1) = false :=
  ⟨by decide,
   C2_emergency_directive_exactly_once.2 300 emTraceEx
     (fun i _ => by simp [emTraceEx, sFlaggedEx, sFireEx]) 0 1 (by decide) (by decide)⟩

theorem filter_length_pos_iff_any {α : Type} (p : α → Bool) (l : List α) :
    0 < (l.filter p).length ↔ l.any p = true := by
  rw [List.length_pos]
  constructor
  · intro h
    rw [List.any_eq_true]
    by_contra hcon
    push_neg at hcon
    exact h (List.filter_eq_nil_iff.mpr (fun a ha => by simpa using hcon a ha))
  · intro h hnil
    rw [List.any_eq_true] at h
    obtain ⟨a, ha, hpa⟩ := h
    have : a ∈ l.filter p := List.mem_filter.mpr ⟨ha, hpa⟩
    rw [hnil] at this
    simp at this

theorem decide_length_pos_eq_any {α : Type} (p : α → Bool) (l : List α) :
    decide ((l.filter p).length > 0) = l.any p := by
  rw [Bool.eq_iff_iff]
  simp only [decide_eq_true_eq]
  exact filter_length_pos_iff_any _ _

/-- A colony-room state with no controller while the safe-mode trigger
condition holds. -/
def sNoControllerEx : OverlordState :=
  { sFireEx with controllerPresent := false, barrierHits := [100],
                 hostiles := [{ hpos := 3, ownerUsername := "Bob" }] }

/-- **C3 is false as stated**: with the room controller absent, a barrier
below 5000 hits, a non-Invader hostile and no incubator, `handleSafeMode`
dereferences the missing controller (`this.room.controller!.activateSafeMode()`)
and raises instead of skipping the sub-step. -/
theorem C3_counterexample :
    sNoControllerEx.controllerPresent = false ∧
    handleSafeMode sNoControllerEx = Except.error () :=
  ⟨rfl, rfl⟩

/-- **C3 (amended).** The sub-steps degrade gracefully with respect to the
hatchery: with no hatchery, `registerCreepRequests` enqueues nothing and the
emergency placement declines; and `handleSafeMode` terminates normally
whenever the controller is present, or whenever no barrier is critically
low — but not when the trigger condition holds with the controller absent. -/
theorem C3_substeps_degrade_gracefully (th : Nat) (s : OverlordState) :
    (s.hatcheryPresent = false →
      registerCreepRequests s = [] ∧ emergencyCreate th s = false) ∧
    (s.controllerPresent = true → ∃ s2, handleSafeMode s = Except.ok s2) ∧
    ((s.barrierHits.any (fun h => h < 5000) &&
      s.hostiles.any (fun c => c.ownerUsername != "Invader") && !s.incubator) = false →
      handleSafeMode s = Except.ok s) := by
  refine ⟨?_, ?_, ?_⟩
  · intro hh
    constructor
    · simp [registerCreepRequests, hh]
    · simp [emergencyCreate, hh]
  · intro hc
    simp only [handleSafeMode, hc]
    split <;> exact ⟨_, rfl⟩
  · intro ht
    have e1 := decide_length_pos_eq_any (fun h => decide (h < 5000)) s.barrierHits
    have e2 := decide_length_pos_eq_any (fun c => c.ownerUsername != "Invader") s.hostiles
    simp only [handleSafeMode, e1, e2, ht]
    simp

/-- State with the hatchery absent, for exercising graceful degradation. -/
def sNoHatchEx : OverlordState := { sFireEx with hatcheryPresent := false }

theorem C3_substeps_degrade_gracefully_witness :
    (registerCreepRequests sNoHatchEx = [] ∧ emergencyCreate 300 sNoHatchEx = false) ∧
    handleSafeMode sFireEx = Except.ok sFireEx :=
  ⟨(C3_substeps_degrade_gracefully 300 sNoHatchEx).1 (by decide),
   (C3_substeps_degrade_gracefully 300 sFireEx).2.2 (by decide)⟩

/-- A colony-room state where the safe-mode trigger holds but the room
controller is absent. -/
def sC6Ex : OverlordState :=
  { sFireEx with controllerPresent := false, barrierHits := [200],
                 hostiles := [{ hpos := 4, ownerUsername := "Alice" }] }

/-- **C6 is false as stated**: the claimed unconditional iff fails when the
trigger condition holds with the room controller absent — `handleSafeMode`
then raises on the missing controller, so safe mode is neither activated
nor is the room state left unchanged. -/
theorem C6_counterexample :
    (sC6Ex.barrierHits.any (fun h => h < 5000) &&
     sC6Ex.hostiles.any (fun c => c.ownerUsername != "Invader") && !sC6Ex.incubator) = true ∧
    handleSafeMode sC6Ex ≠ Except.ok { sC6Ex with roomSafeMode := true } ∧
    handleSafeMode sC6Ex ≠ Except.ok sC6Ex := by
  have he : handleSafeMode sC6Ex = Except.error () := rfl
  refine ⟨by decide, ?_, ?_⟩ <;> rw [he] <;> intro hcon <;> exact Except.noConfusion hcon

/-- **C6 (amended).** Safe mode is activated exactly when the room contains
a barrier below 5000 hits and a hostile creep not owned by the NPC Invader
while the colony is not being incubated, provided the room controller is
present; when the trigger does not hold the room state is unchanged; but
when the trigger holds with the controller absent, `handleSafeMode` raises
on the missing controller instead. -/
theorem C6_safe_mode_cases (s : OverlordState) :
    ((s.barrierHits.any (fun h => h < 5000) &&
      s.hostiles.any (fun c => c.ownerUsername != "Invader") && !s.incubator) = true →
      s.controllerPresent = true →
      handleSafeMode s = Except.ok { s with roomSafeMode := true }) ∧
    ((s.barrierHits.any (fun h => h < 5000) &&
      s.hostiles.any (fun c => c.ownerUsername != "Invader") && !s.incubator) = true →
      s.controllerPresent = false →
      handleSafeMode s = Except.error ()) ∧
    ((s.barrierHits.any (fun h => h < 5000) &&
      s.hostiles.any (fun c => c.ownerUsername != "Invader") && !s.incubator) = false →
      handleSafeMode s = Except.ok s) := by
  have e1 := decide_length_pos_eq_any (fun h => decide (h < 5000)) s.barrierHits
  have e2 := decide_length_pos_eq_any (fun c => c.ownerUsername != "Invader") s.hostiles
  refine ⟨?_, ?_, ?_⟩
  · intro ht hc
    simp only [handleSafeMode, e1, e2, ht, hc]
    simp
  · intro ht hc
    simp only [handleSafeMode, e1, e2, ht, hc]
    simp
  · intro ht
    simp only [handleSafeMode, e1, e2, ht]
    simp

/-- A colony-room state (controller present) where the safe-mode trigger
holds. -/
def sSafeEx : OverlordState :=
  { sFireEx with barrierHits := [100],
                 hostiles := [{ hpos := 3, ownerUsername := "Bob" }] }

theorem C6_safe_mode_cases_witness :
    handleSafeMode sSafeEx = Except.ok { sSafeEx with roomSafeMode := true } ∧
    handleSafeMode sC6Ex = Except.error () :=
  ⟨(C6_safe_mode_cases sSafeEx).1 (by decide) rfl,
   (C6_safe_mode_cases sC6Ex).2.1 (by decide) rfl⟩

/-- **C5.** For every room checked during `placeDirectives` (the colony's
outposts and the rooms of incubating colonies), a guard directive is created
if and only if the room has at least one hostile and no guard marker flag;
when created it is placed at a hostile's position and appears among the
placed directives. -/
theorem C5_guard_directive_iff (th : Nat) (c : OverlordState) (r : RoomInfo)
    (hr : r ∈ roomsToCheck c) :
    ((guardDirectiveFor r).isSome ↔
      (0 < r.hostiles.length ∧ r.flags.filter (fun f => f.isGuardMarker) = [])) ∧
    (∀ p, guardDirectiveFor r = some p → p ∈ r.hostiles.map HostileInfo.hpos) ∧
    (∀ p, guardDirectiveFor r = some p → Directive.guard p ∈ placeDirectives th c) := by
  refine ⟨?_, ?_, ?_⟩
  · simp only [guardDirectiveFor]
    constructor
    · intro h
      by_cases hcond : (r.hostiles.length > 0 &&
          (r.flags.filter (fun f => f.isGuardMarker)).length == 0) = true
      · rw [Bool.and_eq_true] at hcond
        refine ⟨by simpa using hcond.1, ?_⟩
        have := hcond.2
        simp only [beq_iff_eq, List.length_eq_zero] at this
        exact this
      · rw [if_neg hcond] at h
        simp at h
    · rintro ⟨hh, hf⟩
      rw [if_pos]
      · cases rh : r.hostiles with
        | nil => rw [rh] at hh; simp at hh
        | cons a l => simp [rh]
      · simp [hf]
        omega
  · intro p hp
    simp only [guardDirectiveFor] at hp
    split at hp
    · cases rh : r.hostiles with
      | nil => rw [rh] at hp; simp at hp
      | cons a l =>
        rw [rh] at hp
        simp at hp
        simp [rh, hp]
    · simp at hp
  · intro p hp
    simp only [placeDirectives, List.mem_append]
    left
    rw [List.mem_filterMap]
    exact ⟨r, hr, by simp [hp]⟩

/-- An outpost room with one hostile and no guard marker flag. -/
def rGuardEx : RoomInfo :=
  { flags := [], hostiles := [{ hpos := 7, ownerUsername := "Bob" }] }

/-- A colony state whose outpost list contains `rGuardEx`. -/
def cGuardEx : OverlordState := { sFireEx with outposts := [rGuardEx] }

theorem C5_guard_directive_iff_witness :
    Directive.guard 7 ∈ placeDirectives 300 cGuardEx :=
  (C5_guard_directive_iff 300 cGuardEx rGuardEx (by decide)).2.2 7 (by decide)

/-- **C7.** A worker spawn request is enqueued by `registerCreepRequests`
if and only if the hatchery exists, the room has at least one storage unit,
and the worker count is below the needed count — 3 with an incubator,
1 otherwise. -/
theorem C7_worker_spawn_request_iff (s : OverlordState) :
    SpawnRequest.worker ∈ registerCreepRequests s ↔
      (s.hatcheryPresent = true ∧ 0 < s.storageUnits ∧
       s.numWorkers < (if s.incubator then 3 else 1)) := by
  simp only [registerCreepRequests]
  by_cases hh : s.hatcheryPresent
  case neg => simp [hh]
  case pos =>
  simp only [hh, if_true, List.mem_append, true_and]
  have hmem : ∀ (b : Bool), SpawnRequest.worker ∈
      (if b = true then [SpawnRequest.mineralSupplier] else []) ↔ False := by
    intro b
    cases b <;> simp
  rw [hmem, false_or]
  by_cases hi : s.incubator = true
  · rw [if_pos hi]
    constructor
    · intro h
      split at h
      · rename_i hcw
        simp only [Bool.and_eq_true, decide_eq_true_eq] at hcw
        exact ⟨hcw.2, hcw.1⟩
      · simp at h
    · rintro ⟨hsu, hw⟩
      simp [hw, hsu]
  · rw [if_neg hi]
    constructor
    · intro h
      split at h
      · rename_i hcw
        simp only [Bool.and_eq_true, decide_eq_true_eq] at hcw
        exact ⟨hcw.2, hcw.1⟩
      · simp at h
    · rintro ⟨hsu, hw⟩
      simp [hw, hsu]

theorem stepIdx_range_map {ctor : Nat → TickEvent}
    (hinj : ∀ a b, ctor a = ctor b → a = b) :
    ∀ (n k i : Nat) (rest : List TickEvent), i < n →
      stepIdx (ctor (k + i)) ((List.range' k n).map ctor ++ rest) = i := by
  intro n
  induction n with
  | zero => intro k i rest hi; omega
  | succ n ih =>
    intro k i rest hi
    rw [List.range'_succ]
    cases i with
    | zero =>
      simp [stepIdx]
    | succ i =>
      simp only [List.map_cons, List.cons_append, stepIdx, List.append_eq]
      rw [if_neg]
      · have := ih (k + 1) i rest (by omega)
        rw [show k + 1 + i = k + (i + 1) by omega] at this
        rw [this]
      · intro hcon
        have := hinj _ _ hcon
        omega

theorem stepIdx_past_range {ctor : Nat → TickEvent} {e : TickEvent}
    (hne : ∀ j, ctor j ≠ e) :
    ∀ (n k : Nat) (rest : List TickEvent),
      stepIdx e ((List.range' k n).map ctor ++ rest) = n + stepIdx e rest := by
  intro n
  induction n with
  | zero => intro k rest; simp [List.range']
  | succ n ih =>
    intro k rest
    rw [List.range'_succ]
    simp only [List.map_cons, List.cons_append, stepIdx, List.append_eq]
    rw [if_neg (hne k), ih (k + 1) rest]
    omega

/-- **C8 is false as stated** for the run phase: with one directive, the
directive's run hook (position 0 in `Overlord.run`) executes before, not
after, the directive-placement step (position 2). -/
theorem C8_counterexample :
    ¬ (stepIdx TickEvent.placeDirectivesStep (runPhaseSteps 1) <
       stepIdx (TickEvent.directiveRunHook 0) (runPhaseSteps 1)) := by decide

/-- **C8 (amended).** In every tick, directive init hooks run before the
Overlord's objective/request registration steps inside `init`, and
directive run hooks run at the start of the run phase — before the
safe-mode step and before the directive-placement step, not after it. -/
theorem C8_hook_ordering (n i : Nat) (hi : i < n) :
    stepIdx (TickEvent.directiveInitHook i) (initPhaseSteps n) <
      stepIdx TickEvent.registerObjectivesStep (initPhaseSteps n) ∧
    stepIdx (TickEvent.directiveRunHook i) (runPhaseSteps n) <
      stepIdx TickEvent.handleSafeModeStep (runPhaseSteps n) ∧
    stepIdx (TickEvent.directiveRunHook i) (runPhaseSteps n) <
      stepIdx TickEvent.placeDirectivesStep (runPhaseSteps n) := by
  have hinjI : ∀ a b, TickEvent.directiveInitHook a = TickEvent.directiveInitHook b → a = b := by
    intro a b h; cases h; rfl
  have hinjR : ∀ a b, TickEvent.directiveRunHook a = TickEvent.directiveRunHook b → a = b := by
    intro a b h; cases h; rfl
  have h1 : stepIdx (TickEvent.directiveInitHook i) (initPhaseSteps n) = i := by
    have := stepIdx_range_map hinjI n 0 i
      [TickEvent.registerObjectivesStep, TickEvent.registerCreepRequestsStep] hi
    simpa [initPhaseSteps] using this
  have h2 : stepIdx TickEvent.registerObjectivesStep (initPhaseSteps n) = n := by
    have := @stepIdx_past_range TickEvent.directiveInitHook
      TickEvent.registerObjectivesStep (fun j => by simp) n 0
      [TickEvent.registerObjectivesStep, TickEvent.registerCreepRequestsStep]
    simpa [initPhaseSteps, stepIdx] using this
  have h3 : stepIdx (TickEvent.directiveRunHook i) (runPhaseSteps n) = i := by
    have := stepIdx_range_map hinjR n 0 i
      [TickEvent.handleSafeModeStep, TickEvent.placeDirectivesStep] hi
    simpa [runPhaseSteps] using this
  have h4 : stepIdx TickEvent.handleSafeModeStep (runPhaseSteps n) = n := by
    have := @stepIdx_past_range TickEvent.directiveRunHook
      TickEvent.handleSafeModeStep (fun j => by simp) n 0
      [TickEvent.handleSafeModeStep, TickEvent.placeDirectivesStep]
    simpa [runPhaseSteps, stepIdx] using this
  have h5 : stepIdx TickEvent.placeDirectivesStep (runPhaseSteps n) = n + 1 := by
    have := @stepIdx_past_range TickEvent.directiveRunHook
      TickEvent.placeDirectivesStep (fun j => by simp) n 0
      [TickEvent.handleSafeModeStep, TickEvent.placeDirectivesStep]
    simpa [runPhaseSteps, stepIdx] using this
  omega

theorem C8_hook_ordering_witness :
    stepIdx (TickEvent.directiveInitHook 0) (initPhaseSteps 2) <
      stepIdx TickEvent.registerObjectivesStep (initPhaseSteps 2) ∧
    stepIdx (TickEvent.directiveRunHook 0) (runPhaseSteps 2) <
      stepIdx TickEvent.handleSafeModeStep (runPhaseSteps 2) ∧
    stepIdx (TickEvent.directiveRunHook 0) (runPhaseSteps 2) <
      stepIdx TickEvent.placeDirectivesStep (runPhaseSteps 2) :=
  C8_hook_ordering 2 0 (by decide)

/-- **C9.** `handleQueen` always assigns a task: a transfer to the
prioritized closest supply request when the queen carries energy and such a
request exists, otherwise the recharge chain — withdraw from a non-empty
link, else a non-empty battery, else the generic recharge task — so the
recharge branch never leaves the queen without a task. -/
theorem C9_queen_always_assigned (h : HatcheryState) (q : QueenState) :
    (handleQueen h q).isSome = true ∧
    (0 < q.carryEnergy → ∀ tgt, h.supplyRequest = some tgt →
      handleQueen h q = some (QueenTask.transfer tgt)) ∧
    ((q.carryEnergy = 0 ∨ h.supplyRequest = none) →
      handleQueen h q = some (rechargeActions h)) ∧
    (linkNonEmpty h = true → rechargeActions h = QueenTask.withdrawLink) ∧
    (linkNonEmpty h = false → batteryNonEmpty h = true →
      rechargeActions h = QueenTask.withdrawBattery) ∧
    (linkNonEmpty h = false → batteryNonEmpty h = false →
      rechargeActions h = QueenTask.recharge) := by
  refine ⟨?_, ?_, ?_, ?_, ?_, ?_⟩
  · by_cases hc : q.carryEnergy > 0 <;> simp [handleQueen, hc]
  · intro hpos tgt hreq
    simp [handleQueen, hpos, supplyActions, hreq]
  · rintro (hz | hn)
    · simp [handleQueen, hz]
    · by_cases hc : q.carryEnergy > 0 <;> simp [handleQueen, hc, supplyActions, hn]
  · intro hl
    simp [rechargeActions, hl]
  · intro hl hb
    simp [rechargeActions, hl, hb]
  · intro hl hb
    simp [rechargeActions, hl, hb]

/-- Example hatchery state for the queen: a supply request for target 5. -/
def hQueenEx : HatcheryState :=
  { link := none, battery := none, supplyRequest := some 5 }

/-- Example queen carrying energy. -/
def qQueenEx : QueenState := { carryEnergy := 50, carryCapacity := 100 }

theorem C9_queen_always_assigned_witness :
    handleQueen hQueenEx qQueenEx = some (QueenTask.transfer 5) :=
  (C9_queen_always_assigned hQueenEx qQueenEx).2.1 (by decide) 5 (by decide)

/-- **C10.** `registerObjectives` creates a repair objective for a
repairable structure exactly when its hits are strictly below its maximum
hits and, for containers and roads, additionally strictly below 70% of the
maximum (`10 * hits < 7 * hitsMax` over integer hit points). -/
theorem C10_repair_objective_iff (repairables : List RepairableInfo) (s : RepairableInfo) :
    s ∈ repairTargets repairables ↔
      (s ∈ repairables ∧ s.hits < s.hitsMax ∧
       ((s.stype = STRUCTURE_CONTAINER ∨ s.stype = STRUCTURE_ROAD) →
         10 * s.hits < 7 * s.hitsMax)) := by
  simp only [repairTargets, List.mem_filter, repairFilter, Bool.and_eq_true,
    Bool.or_eq_true, Bool.not_eq_true', beq_eq_false_iff_ne, ne_eq,
    decide_eq_true_eq, and_assoc]
  tauto
